import Mathlib

/-!
Verification of the AutoPong repository (MicroPython bouncing-ball toy).

The development shallowly embeds the pure logic of `src/main.py` and
`src/xpt2046.py`:

* positions are `ℤ` (screen pixels), velocities are `ℚ` (the Python code
  mixes ints and floats; the float constants `0.025` and `0.9` are taken at
  their decimal values),
* Python's `int(...)` conversion (truncation toward zero) is `pyInt`,
* the pseudo-random deflection `randint(-2, 2)` is an explicit integer
  parameter, and the monotonic clock `ticks_ms` an explicit integer
  parameter,
* display writes are recorded as a list of `DrawCmd` values instead of
  being performed on hardware.
-/

namespace AutoPong

/-- Screen width in pixels (`WIDTH = 240` in `main.py`). -/
def WIDTH : ℤ := 240

/-- Screen height in pixels (`HEIGHT = 320` in `main.py`). -/
def HEIGHT : ℤ := 320

/-- Ball radius in pixels (`BALL_RADIUS = 10` in `main.py`). -/
def BALL_RADIUS : ℤ := 10

/-- Rightward gravity per tick (`GRAVITY = 0.025` in `main.py`). -/
def GRAVITY : ℚ := 25 / 1000

/-- Overlay animation lifetime in ms (`SIDE_ANIM_DURATION = 100`). -/
def SIDE_ANIM_DURATION : ℤ := 100

/-- Python's `int(...)` on a real number: truncation toward zero. -/
def pyInt (q : ℚ) : ℤ := if q < 0 then ⌈q⌉ else ⌊q⌋

/-- The four wall identifiers used as `bounce` strings in `main.py`. -/
inductive Side where
  | top
  | bottom
  | left
  | right
deriving DecidableEq, Repr

/-- Result of the collision-resolution part of `update_ball_position`
(`main.py` lines 159–178): clamped position, post-reflection velocities,
and the reported bounce side (last write wins). -/
structure BallUpdate where
  nx : ℤ
  ny : ℤ
  vx : ℚ
  vy : ℚ
  bounce : Option Side
deriving DecidableEq, Repr

/-- `main.py` lines 159–178 of `update_ball_position`: apply gravity to
`vx`, form the tentative integer position, then resolve top/bottom and
left/right wall collisions.  The vertical branch runs first and the
horizontal branch may overwrite `bounce`. -/
def collisionStep (x y vx vy : ℚ) : BallUpdate :=
  let vx1 := vx + GRAVITY
  let nx0 := pyInt (x + vx1)
  let ny0 := pyInt (y + vy)
  let vert : ℤ × ℚ × Option Side :=
    if ny0 - BALL_RADIUS < 0 then
      (BALL_RADIUS, -vy, some Side.top)
    else if ny0 + BALL_RADIUS ≥ HEIGHT then
      (HEIGHT - BALL_RADIUS - 1, ((pyInt (-vy * (9 / 10)) : ℤ) : ℚ), some Side.bottom)
    else
      (ny0, vy, none)
  let horiz : ℤ × ℚ × Option Side :=
    if nx0 - BALL_RADIUS < 0 then
      (BALL_RADIUS, -vx1, some Side.left)
    else if nx0 + BALL_RADIUS ≥ WIDTH then
      (WIDTH - BALL_RADIUS - 1, ((pyInt (-vx1 * (9 / 10)) : ℤ) : ℚ), some Side.right)
    else
      (nx0, vx1, vert.2.2)
  ⟨horiz.1, vert.1, horiz.2.1, vert.2.1, horiz.2.2⟩

/-- `update_ball_position` (`main.py` lines 154–197) with the random
deflection `randint(-2, 2)` passed in as `d`.  After collision
resolution, a detected bounce adds the deflection to the tangential
velocity, forces the normal velocity to magnitude ≥ 1 pointing away from
the reported wall, and truncates both velocities to integers. -/
def update_ball_position (x y vx vy : ℚ) (d : ℤ) : ℤ × ℤ × ℚ × ℚ :=
  let c := collisionStep x y vx vy
  match c.bounce with
  | none => (c.nx, c.ny, c.vx, c.vy)
  | some s =>
    let vx2 : ℚ :=
      if s = Side.top ∨ s = Side.bottom then c.vx + (d : ℚ)
      else max 1 |c.vx| * (if s = Side.right then -1 else 1)
    let vy2 : ℚ :=
      if s = Side.top ∨ s = Side.bottom then
        max 1 |c.vy| * (if s = Side.bottom then -1 else 1)
      else c.vy + (d : ℚ)
    (c.nx, c.ny, ((pyInt vx2 : ℤ) : ℚ), ((pyInt vy2 : ℤ) : ℚ))

/-- Tentative x position before collision clamping (`int(x + vx)` after
`vx += GRAVITY`). -/
def tentX (x vx : ℚ) : ℤ := pyInt (x + (vx + GRAVITY))

/-- Tentative y position before collision clamping (`int(y + vy)`). -/
def tentY (y vy : ℚ) : ℤ := pyInt (y + vy)

/-! ### Basic facts about `pyInt` -/

theorem pyInt_of_nonneg {q : ℚ} (h : 0 ≤ q) : pyInt q = ⌊q⌋ := by
  rw [pyInt, if_neg (not_lt.2 h)]

theorem pyInt_of_nonpos {q : ℚ} (h : q ≤ 0) : pyInt q = ⌈q⌉ := by
  rcases lt_or_eq_of_le h with h' | h'
  · rw [pyInt, if_pos h']
  · rw [h', pyInt, if_neg (lt_irrefl _)]
    simp

theorem pyInt_neg (q : ℚ) : pyInt (-q) = -pyInt q := by
  rcases lt_trichotomy q 0 with h | h | h
  · rw [pyInt_of_nonneg (by linarith), pyInt_of_nonpos (le_of_lt h), Int.floor_neg]
  · simp [h, pyInt]
  · rw [pyInt_of_nonpos (by linarith), pyInt_of_nonneg (le_of_lt h), Int.ceil_neg]

theorem pyInt_nonneg {q : ℚ} (h : 0 ≤ q) : 0 ≤ pyInt q := by
  rw [pyInt_of_nonneg h]
  exact Int.floor_nonneg.2 h

theorem pyInt_nonpos {q : ℚ} (h : q ≤ 0) : pyInt q ≤ 0 := by
  rw [pyInt_of_nonpos h]
  exact Int.ceil_le.2 (by exact_mod_cast h)

theorem pyInt_abs (q : ℚ) : pyInt |q| = |pyInt q| := by
  rcases le_or_lt 0 q with h | h
  · rw [abs_of_nonneg h, abs_of_nonneg (pyInt_nonneg h)]
  · rw [abs_of_neg h, pyInt_neg, abs_of_nonpos (pyInt_nonpos (le_of_lt h))]

theorem one_le_pyInt {q : ℚ} (h : 1 ≤ q) : 1 ≤ pyInt q := by
  rw [pyInt_of_nonneg (by linarith)]
  exact Int.le_floor.2 (by exact_mod_cast h)

theorem pyInt_le_neg_one {q : ℚ} (h : q ≤ -1) : pyInt q ≤ -1 := by
  rw [pyInt_of_nonpos (by linarith)]
  exact Int.ceil_le.2 (by exact_mod_cast h)

theorem pyInt_le_of_le {q : ℚ} {z : ℤ} (h0 : 0 ≤ q) (h : q ≤ (z : ℚ)) :
    pyInt q ≤ z := by
  rw [pyInt_of_nonneg h0]
  calc ⌊q⌋ ≤ ⌊(z : ℚ)⌋ := Int.floor_le_floor h
    _ = z := Int.floor_intCast z

/-! ### Evaluation sanity checks (spec §8 examples) -/

example : collisionStep 5 309 0 1 =
    ⟨BALL_RADIUS, HEIGHT - BALL_RADIUS - 1, -(1 / 40), 0, some Side.left⟩ := by
  norm_num [collisionStep, pyInt, GRAVITY, WIDTH, HEIGHT, BALL_RADIUS]

example : update_ball_position 5 309 0 1 0 = (10, 309, 1, 0) := by
  have h : collisionStep 5 309 0 1 = ⟨10, 309, -(1 / 40), 0, some Side.left⟩ := by
    norm_num [collisionStep, pyInt, GRAVITY, WIDTH, HEIGHT, BALL_RADIUS]
  unfold update_ball_position
  rw [h]
  simp only [reduceCtorEq, or_self, if_false, reduceIte]
  norm_num [pyInt, max_def, abs_of_pos]

example : update_ball_position 120 160 1 1 0 = (121, 161, 41 / 40, 1) := by
  have h : collisionStep 120 160 1 1 = ⟨121, 161, 41 / 40, 1, none⟩ := by
    norm_num [collisionStep, pyInt, GRAVITY, WIDTH, HEIGHT, BALL_RADIUS]
  unfold update_ball_position
  rw [h]

/-! ### Position bounds (claim C1) -/

theorem collisionStep_nx_bounds (x y vx vy : ℚ) :
    BALL_RADIUS ≤ (collisionStep x y vx vy).nx ∧
      (collisionStep x y vx vy).nx ≤ WIDTH - BALL_RADIUS - 1 := by
  simp only [collisionStep, WIDTH, HEIGHT, BALL_RADIUS]
  split_ifs <;> dsimp only <;> omega

theorem collisionStep_ny_bounds (x y vx vy : ℚ) :
    BALL_RADIUS ≤ (collisionStep x y vx vy).ny ∧
      (collisionStep x y vx vy).ny ≤ HEIGHT - BALL_RADIUS - 1 := by
  simp only [collisionStep, WIDTH, HEIGHT, BALL_RADIUS]
  split_ifs <;> dsimp only <;> omega

theorem update_ball_position_pos (x y vx vy : ℚ) (d : ℤ) :
    (update_ball_position x y vx vy d).1 = (collisionStep x y vx vy).nx ∧
      (update_ball_position x y vx vy d).2.1 = (collisionStep x y vx vy).ny := by
  unfold update_ball_position
  rcases h : (collisionStep x y vx vy).bounce with _ | s
  · simp [h]
  · simp [h]

/-- C1: for every input state `(x, y, vx, vy)` (and any random deflection
`d`), the position returned by `update_ball_position` satisfies
`BALL_RADIUS ≤ nx ≤ WIDTH - BALL_RADIUS - 1` and
`BALL_RADIUS ≤ ny ≤ HEIGHT - BALL_RADIUS - 1`: the ball never escapes the
display bounds after any tick. -/
theorem C1_ball_never_escapes_bounds (x y vx vy : ℚ) (d : ℤ) :
    BALL_RADIUS ≤ (update_ball_position x y vx vy d).1 ∧
      (update_ball_position x y vx vy d).1 ≤ WIDTH - BALL_RADIUS - 1 ∧
      BALL_RADIUS ≤ (update_ball_position x y vx vy d).2.1 ∧
      (update_ball_position x y vx vy d).2.1 ≤ HEIGHT - BALL_RADIUS - 1 := by
  obtain ⟨hx, hy⟩ := update_ball_position_pos x y vx vy d
  rw [hx, hy]
  exact ⟨(collisionStep_nx_bounds x y vx vy).1, (collisionStep_nx_bounds x y vx vy).2,
    (collisionStep_ny_bounds x y vx vy).1, (collisionStep_ny_bounds x y vx vy).2⟩

/-! ### Per-wall characterization of `collisionStep` -/

theorem collisionStep_vert (x y vx vy : ℚ) :
    ((collisionStep x y vx vy).ny, (collisionStep x y vx vy).vy) =
      (if tentY y vy - BALL_RADIUS < 0 then ((BALL_RADIUS : ℤ), -vy)
       else if tentY y vy + BALL_RADIUS ≥ HEIGHT then
         (HEIGHT - BALL_RADIUS - 1, ((pyInt (-vy * (9 / 10)) : ℤ) : ℚ))
       else (tentY y vy, vy)) := by
  simp only [collisionStep, tentY]
  split_ifs <;> rfl

theorem collisionStep_horiz (x y vx vy : ℚ) :
    ((collisionStep x y vx vy).nx, (collisionStep x y vx vy).vx,
        (collisionStep x y vx vy).bounce) =
      (if tentX x vx - BALL_RADIUS < 0 then
        ((BALL_RADIUS : ℤ), -(vx + GRAVITY), some Side.left)
       else if tentX x vx + BALL_RADIUS ≥ WIDTH then
         (WIDTH - BALL_RADIUS - 1, ((pyInt (-(vx + GRAVITY) * (9 / 10)) : ℤ) : ℚ),
           some Side.right)
       else
         (tentX x vx, vx + GRAVITY,
           if tentY y vy - BALL_RADIUS < 0 then some Side.top
           else if tentY y vy + BALL_RADIUS ≥ HEIGHT then some Side.bottom
           else none)) := by
  simp only [collisionStep, tentX, tentY]
  split_ifs <;> rfl

/-! ### Claim C4: energy loss on bottom/right, exact reflection on top/left -/

/-- C4: for every collision detected by `collisionStep` (the collision
phase of `update_ball_position`), a bottom or right wall hit multiplies
the magnitude of the normal velocity component by 0.9 truncated to an
integer (relative to its pre-collision magnitude — for the x axis the
pre-collision velocity is the gravity-updated `vx + GRAVITY`), while a top
or left wall hit negates the normal component exactly, with no loss of
magnitude. -/
theorem C4_bottom_right_lose_energy (x y vx vy : ℚ) :
    (tentY y vy - BALL_RADIUS < 0 → (collisionStep x y vx vy).vy = -vy) ∧
    (¬(tentY y vy - BALL_RADIUS < 0) → tentY y vy + BALL_RADIUS ≥ HEIGHT →
      |(collisionStep x y vx vy).vy| = ((pyInt ((9 / 10) * |vy|) : ℤ) : ℚ)) ∧
    (tentX x vx - BALL_RADIUS < 0 → (collisionStep x y vx vy).vx = -(vx + GRAVITY)) ∧
    (¬(tentX x vx - BALL_RADIUS < 0) → tentX x vx + BALL_RADIUS ≥ WIDTH →
      |(collisionStep x y vx vy).vx| = ((pyInt ((9 / 10) * |vx + GRAVITY|) : ℤ) : ℚ)) := by
  have hv := collisionStep_vert x y vx vy
  have hh := collisionStep_horiz x y vx vy
  refine ⟨?_, ?_, ?_, ?_⟩
  · intro h
    rw [if_pos h] at hv
    simp only [Prod.mk.injEq] at hv
    exact hv.2
  · intro h1 h2
    rw [if_neg h1, if_pos h2] at hv
    simp only [Prod.mk.injEq] at hv
    have : (collisionStep x y vx vy).vy = ((pyInt (-vy * (9 / 10)) : ℤ) : ℚ) := hv.2
    rw [this, ← Int.cast_abs, ← pyInt_abs]
    congr 2
    rw [abs_mul, abs_neg, abs_of_pos (by norm_num : (0 : ℚ) < 9 / 10), mul_comm]
  · intro h
    rw [if_pos h] at hh
    simp only [Prod.mk.injEq] at hh
    exact hh.2.1
  · intro h1 h2
    rw [if_neg h1, if_pos h2] at hh
    simp only [Prod.mk.injEq] at hh
    have : (collisionStep x y vx vy).vx = ((pyInt (-(vx + GRAVITY) * (9 / 10)) : ℤ) : ℚ) :=
      hh.2.1
    rw [this, ← Int.cast_abs, ← pyInt_abs]
    congr 2
    rw [abs_mul, abs_neg, abs_of_pos (by norm_num : (0 : ℚ) < 9 / 10), mul_comm]

/-- Witness for C4 at a concrete bottom hit: ball at `(120, 309)` with
velocity `(0, 1)` hits the bottom wall and the reflected `vy` has
magnitude `int(0.9 * 1) = 0`. -/
theorem C4_bottom_right_lose_energy_witness :
    |(collisionStep 120 309 0 1).vy| = ((pyInt ((9 / 10) * |(1 : ℚ)|) : ℤ) : ℚ) := by
  refine (C4_bottom_right_lose_energy 120 309 0 1).2.1 ?_ ?_
  · norm_num [tentY, pyInt, BALL_RADIUS]
  · norm_num [tentY, pyInt, BALL_RADIUS, HEIGHT]

/-! ### Claim C5: horizontal hit wins on simultaneous collision -/

/-- C5: whenever `update_ball_position` detects both a vertical (top or
bottom) and a horizontal (left or right) wall collision in the same tick,
the single `bounce` value it reports (which drives the side animation) is
the horizontal one: the horizontal branch overwrites the vertical one,
last write wins. -/
theorem C5_horizontal_hit_wins (x y vx vy : ℚ)
    (hvert : tentY y vy - BALL_RADIUS < 0 ∨ tentY y vy + BALL_RADIUS ≥ HEIGHT)
    (hhoriz : tentX x vx - BALL_RADIUS < 0 ∨ tentX x vx + BALL_RADIUS ≥ WIDTH) :
    (collisionStep x y vx vy).bounce =
      some (if tentX x vx - BALL_RADIUS < 0 then Side.left else Side.right) := by
  have hh := collisionStep_horiz x y vx vy
  by_cases hl : tentX x vx - BALL_RADIUS < 0
  · rw [if_pos hl] at hh
    simp only [Prod.mk.injEq] at hh
    rw [if_pos hl]
    exact hh.2.2
  · have hr : tentX x vx + BALL_RADIUS ≥ WIDTH := hhoriz.resolve_left hl
    rw [if_neg hl, if_pos hr] at hh
    simp only [Prod.mk.injEq] at hh
    rw [if_neg hl]
    exact hh.2.2

/-- Witness for C5: ball at `(5, 309)` with velocity `(0, 1)` collides
with both the bottom wall and the left wall in the same tick, and the
reported bounce is `left`. -/
theorem C5_horizontal_hit_wins_witness :
    (collisionStep 5 309 0 1).bounce = some Side.left := by
  have h := C5_horizontal_hit_wins 5 309 0 1
    (by norm_num [tentY, pyInt, BALL_RADIUS, HEIGHT])
    (by norm_num [tentX, pyInt, GRAVITY, BALL_RADIUS, WIDTH])
  rw [h, if_pos (by norm_num [tentX, pyInt, GRAVITY, BALL_RADIUS])]

/-! ### Claim C2: sign reversal and no wall sticking (corrected) -/

theorem update_ball_position_vel (x y vx vy : ℚ) (d : ℤ) (s : Side)
    (h : (collisionStep x y vx vy).bounce = some s) :
    (update_ball_position x y vx vy d).2.2.1 =
      ((pyInt (if s = Side.top ∨ s = Side.bottom then
          (collisionStep x y vx vy).vx + (d : ℚ)
        else max 1 |(collisionStep x y vx vy).vx| *
          (if s = Side.right then -1 else 1)) : ℤ) : ℚ) ∧
    (update_ball_position x y vx vy d).2.2.2 =
      ((pyInt (if s = Side.top ∨ s = Side.bottom then
          max 1 |(collisionStep x y vx vy).vy| * (if s = Side.bottom then -1 else 1)
        else (collisionStep x y vx vy).vy + (d : ℚ)) : ℤ) : ℚ) := by
  rw [update_ball_position.eq_def]
  dsimp only
  rw [h]
  exact ⟨rfl, rfl⟩

/-- C2 counterexample: at input `(x, y, vx, vy) = (5, 309, 0, 1)` with
deflection `0`, `update_ball_position` detects a bottom-wall collision
(tentative `ny = 310`, `310 + 10 ≥ 320`) with pre-collision normal
velocity `vy = 1 > 0`, yet the reflected normal velocity before the
deflection is `int(-1 * 0.9) = 0` — the sign is *not* reversed — and the
returned `vy` is `0`, of magnitude `< 1`: the ball's velocity normal to
the bottom wall it collided with ends at zero. -/
theorem C2_counterexample :
    (¬(tentY (309 : ℚ) 1 - BALL_RADIUS < 0) ∧
        tentY (309 : ℚ) 1 + BALL_RADIUS ≥ HEIGHT) ∧
      (0 : ℚ) < 1 ∧ (collisionStep 5 309 0 1).vy = 0 ∧
      (update_ball_position 5 309 0 1 0).2.2.2 = 0 := by
  refine ⟨⟨?_, ?_⟩, by norm_num, ?_, ?_⟩
  · norm_num [tentY, pyInt, BALL_RADIUS]
  · norm_num [tentY, pyInt, BALL_RADIUS, HEIGHT]
  · norm_num [collisionStep, pyInt, GRAVITY, WIDTH, HEIGHT, BALL_RADIUS]
  · have h : collisionStep 5 309 0 1 = ⟨10, 309, -(1 / 40), 0, some Side.left⟩ := by
      norm_num [collisionStep, pyInt, GRAVITY, WIDTH, HEIGHT, BALL_RADIUS]
    unfold update_ball_position
    rw [h]
    simp only [reduceCtorEq, or_self, if_false, reduceIte]
    norm_num [pyInt]

/-- C2 (amended): on a top or left collision the normal velocity
component is exactly negated before the deflection; on a bottom or right
collision it is set to `int(-v * 0.9)`, which is zero or of opposite sign
to the incoming component (`v * v' ≤ 0`) — but not always a strict sign
reversal.  After the deflection, the velocity component normal to the
*reported* bounce wall has magnitude ≥ 1, with sign pointing away from
that wall; the component normal to a vertical-wall hit that was
overwritten by a horizontal hit may end at zero. -/
theorem C2_amended_normal_velocity (x y vx vy : ℚ) (d : ℤ) :
    (tentY y vy - BALL_RADIUS < 0 → (collisionStep x y vx vy).vy = -vy) ∧
    (¬(tentY y vy - BALL_RADIUS < 0) → tentY y vy + BALL_RADIUS ≥ HEIGHT →
      (collisionStep x y vx vy).vy = ((pyInt (-vy * (9 / 10)) : ℤ) : ℚ) ∧
        vy * (collisionStep x y vx vy).vy ≤ 0) ∧
    (tentX x vx - BALL_RADIUS < 0 →
      (collisionStep x y vx vy).vx = -(vx + GRAVITY)) ∧
    (¬(tentX x vx - BALL_RADIUS < 0) → tentX x vx + BALL_RADIUS ≥ WIDTH →
      (collisionStep x y vx vy).vx = ((pyInt (-(vx + GRAVITY) * (9 / 10)) : ℤ) : ℚ) ∧
        (vx + GRAVITY) * (collisionStep x y vx vy).vx ≤ 0) ∧
    ((collisionStep x y vx vy).bounce = some Side.top →
      1 ≤ (update_ball_position x y vx vy d).2.2.2) ∧
    ((collisionStep x y vx vy).bounce = some Side.bottom →
      (update_ball_position x y vx vy d).2.2.2 ≤ -1) ∧
    ((collisionStep x y vx vy).bounce = some Side.left →
      1 ≤ (update_ball_position x y vx vy d).2.2.1) ∧
    ((collisionStep x y vx vy).bounce = some Side.right →
      (update_ball_position x y vx vy d).2.2.1 ≤ -1) := by
  have hv := collisionStep_vert x y vx vy
  have hh := collisionStep_horiz x y vx vy
  refine ⟨?_, ?_, ?_, ?_, ?_, ?_, ?_, ?_⟩
  · intro h
    rw [if_pos h] at hv
    simp only [Prod.mk.injEq] at hv
    exact hv.2
  · intro h1 h2
    rw [if_neg h1, if_pos h2] at hv
    simp only [Prod.mk.injEq] at hv
    refine ⟨hv.2, ?_⟩
    rw [hv.2]
    rcases le_or_lt 0 vy with hs | hs
    · have hc : ((pyInt (-vy * (9 / 10)) : ℤ) : ℚ) ≤ 0 := by
        exact_mod_cast pyInt_nonpos (by nlinarith)
      calc vy * ((pyInt (-vy * (9 / 10)) : ℤ) : ℚ) ≤ vy * 0 :=
            mul_le_mul_of_nonneg_left hc hs
        _ = 0 := mul_zero vy
    · have hc : (0 : ℚ) ≤ ((pyInt (-vy * (9 / 10)) : ℤ) : ℚ) := by
        exact_mod_cast pyInt_nonneg (by nlinarith)
      nlinarith
  · intro h
    rw [if_pos h] at hh
    simp only [Prod.mk.injEq] at hh
    exact hh.2.1
  · intro h1 h2
    rw [if_neg h1, if_pos h2] at hh
    simp only [Prod.mk.injEq] at hh
    refine ⟨hh.2.1, ?_⟩
    rw [hh.2.1]
    rcases le_or_lt 0 (vx + GRAVITY) with hs | hs
    · have hc : ((pyInt (-(vx + GRAVITY) * (9 / 10)) : ℤ) : ℚ) ≤ 0 := by
        exact_mod_cast pyInt_nonpos (by nlinarith)
      calc (vx + GRAVITY) * ((pyInt (-(vx + GRAVITY) * (9 / 10)) : ℤ) : ℚ) ≤
            (vx + GRAVITY) * 0 := mul_le_mul_of_nonneg_left hc hs
        _ = 0 := mul_zero _
    · have hc : (0 : ℚ) ≤ ((pyInt (-(vx + GRAVITY) * (9 / 10)) : ℤ) : ℚ) := by
        exact_mod_cast pyInt_nonneg (by nlinarith)
      nlinarith
  · intro h
    have := (update_ball_position_vel x y vx vy d Side.top h).2
    simp only [reduceCtorEq, or_false, if_true, if_false, mul_one] at this
    rw [this]
    exact_mod_cast one_le_pyInt (le_max_left _ _)
  · intro h
    have := (update_ball_position_vel x y vx vy d Side.bottom h).2
    simp only [reduceCtorEq, false_or, if_true, if_false, reduceIte, mul_neg_one] at this
    rw [this]
    have h1 : pyInt (-(max 1 |(collisionStep x y vx vy).vy|)) ≤ -1 := by
      rw [pyInt_neg]
      have := one_le_pyInt (le_max_left 1 |(collisionStep x y vx vy).vy|)
      omega
    exact_mod_cast h1
  · intro h
    have := (update_ball_position_vel x y vx vy d Side.left h).1
    simp only [reduceCtorEq, or_self, if_false, reduceIte, mul_one] at this
    rw [this]
    exact_mod_cast one_le_pyInt (le_max_left _ _)
  · intro h
    have := (update_ball_position_vel x y vx vy d Side.right h).1
    simp only [reduceCtorEq, or_self, if_false, if_true, reduceIte, mul_neg_one] at this
    rw [this]
    have h1 : pyInt (-(max 1 |(collisionStep x y vx vy).vx|)) ≤ -1 := by
      rw [pyInt_neg]
      have := one_le_pyInt (le_max_left 1 |(collisionStep x y vx vy).vx|)
      omega
    exact_mod_cast h1

/-- Witness for the amended C2 at a concrete top-wall hit: ball at
`(120, 5)` moving with `vy = -2` bounces off the top wall; before the
deflection the normal velocity is exactly negated to `2`, and the
returned `vy` is ≥ 1. -/
theorem C2_amended_normal_velocity_witness :
    (collisionStep 120 5 0 (-2)).vy = -(-2 : ℚ) ∧
      1 ≤ (update_ball_position 120 5 0 (-2) 1).2.2.2 := by
  have h := C2_amended_normal_velocity 120 5 0 (-2) 1
  have htop : tentY (5 : ℚ) (-2) - BALL_RADIUS < 0 := by
    norm_num [tentY, pyInt, BALL_RADIUS]
  have hb : (collisionStep 120 5 0 (-2)).bounce = some Side.top := by
    norm_num [collisionStep, pyInt, GRAVITY, WIDTH, HEIGHT, BALL_RADIUS]
  exact ⟨h.1 htop, h.2.2.2.2.1 hb⟩

/-! ### Touch controller (`src/xpt2046.py`) -/

/-- Calibration and screen parameters of the `Touch` class
(`xpt2046.py` lines 24–69).  `main.py` instantiates it with
`width = HEIGHT = 320` and `height = WIDTH = 240` and the default
calibration range. -/
structure TouchCal where
  width : ℤ
  height : ℤ
  x_min : ℤ
  x_max : ℤ
  y_min : ℤ
  y_max : ℤ
deriving DecidableEq, Repr

namespace Touch

/-- `self.x_multiplier = width / (x_max - x_min)` (`xpt2046.py` line 66). -/
def x_multiplier (t : TouchCal) : ℚ := (t.width : ℚ) / ((t.x_max : ℚ) - (t.x_min : ℚ))

/-- `self.x_add = x_min * -self.x_multiplier` (`xpt2046.py` line 67). -/
def x_add (t : TouchCal) : ℚ := (t.x_min : ℚ) * -(x_multiplier t)

/-- `self.y_multiplier = height / (y_max - y_min)` (`xpt2046.py` line 68). -/
def y_multiplier (t : TouchCal) : ℚ := (t.height : ℚ) / ((t.y_max : ℚ) - (t.y_min : ℚ))

/-- `self.y_add = y_min * -self.y_multiplier` (`xpt2046.py` line 69). -/
def y_add (t : TouchCal) : ℚ := (t.y_min : ℚ) * -(y_multiplier t)

/-- `Touch.normalize` (`xpt2046.py` lines 89–93): map raw ADC values to
screen coordinates, truncating to integers. -/
def normalize (t : TouchCal) (x y : ℤ) : ℤ × ℤ :=
  (pyInt (x_multiplier t * (x : ℚ) + x_add t),
    pyInt (y_multiplier t * (y : ℚ) + y_add t))

/-- `Touch.raw_touch` (`xpt2046.py` lines 95–103), with the two
`send_command` ADC results passed in as `rx`, `ry`: return them when both
fall in the calibrated range, otherwise nothing. -/
def raw_touch (t : TouchCal) (rx ry : ℤ) : Option (ℤ × ℤ) :=
  if t.x_min ≤ rx ∧ rx ≤ t.x_max ∧ t.y_min ≤ ry ∧ ry ≤ t.y_max then
    some (rx, ry)
  else
    none

/-- `Touch.get_touch` (`xpt2046.py` lines 78–87): one non-blocking read;
normalize the sample when it is valid. -/
def get_touch (t : TouchCal) (rx ry : ℤ) : Option (ℤ × ℤ) :=
  (raw_touch t rx ry).map (fun p => normalize t p.1 p.2)

/-- `Touch.send_command` (`xpt2046.py` lines 105–113): the 12-bit ADC
response assembled from bytes 1 and 2 of the 3-byte SPI receive buffer,
`(rx_buf[1] << 4) | (rx_buf[2] >> 4)`. -/
def send_command (b1 b2 : ℕ) : ℕ := (b1 <<< 4) ||| (b2 >>> 4)

end Touch

/-- The `Touch` instance constructed in `main.py` lines 224–231:
`width = HEIGHT = 320`, `height = WIDTH = 240`, default calibration
`x_min = 100, x_max = 1962, y_min = 100, y_max = 1900`. -/
def touchMain : TouchCal := ⟨320, 240, 100, 1962, 100, 1900⟩

/-! ### Claim C10: `send_command` returns a 12-bit value -/

/-- C10: for every possible contents of the 3-byte SPI receive buffer
(bytes are < 256), `Touch.send_command` returns a value at most 4095
(it is a natural number, hence non-negative), so every raw sample
compared against the calibration range in `raw_touch` lies in
`[0, 4095]`. -/
theorem C10_send_command_twelve_bits (b1 b2 : ℕ) (h1 : b1 < 256) (h2 : b2 < 256) :
    Touch.send_command b1 b2 ≤ 4095 := by
  have ha : b1 <<< 4 < 2 ^ 12 := by
    have e : b1 <<< 4 = b1 * 16 := by
      rw [Nat.shiftLeft_eq]
    calc b1 <<< 4 = b1 * 16 := e
      _ < 4096 := by omega
      _ = 2 ^ 12 := by norm_num
  have hb : b2 >>> 4 < 2 ^ 12 := by
    rw [Nat.shiftRight_eq_div_pow]
    have : b2 / 2 ^ 4 ≤ b2 := Nat.div_le_self _ _
    omega
  have := Nat.or_lt_two_pow ha hb
  rw [Touch.send_command]
  omega

/-- Witness for C10 at the all-ones buffer: `send_command 255 255 = 4095`. -/
theorem C10_send_command_twelve_bits_witness :
    Touch.send_command 255 255 ≤ 4095 :=
  C10_send_command_twelve_bits 255 255 (by norm_num) (by norm_num)

/-! ### Claim C6: calibration mapping of `get_touch` (corrected) -/

/-- C6 counterexample: with the calibration used by `main.py`
(`width = 320`, `x_max = 1962`), the in-range raw sample
`(rx, ry) = (1962, 1000)` is accepted and maps to screen x-coordinate
`int(1962 * 320/1862 - 100 * 320/1862) = 320`, which is *not* in
`[0, width) = [0, 320)`: the upper endpoint of the raw range lands on
`width` itself. -/
theorem C6_counterexample :
    Touch.get_touch touchMain 1962 1000 = some (320, 120) ∧
      ¬((320 : ℤ) < touchMain.width) := by
  constructor
  · have hr : Touch.raw_touch touchMain 1962 1000 = some (1962, 1000) := by
      rw [Touch.raw_touch, if_pos (by norm_num [touchMain])]
    rw [Touch.get_touch, hr, Option.map_some']
    simp only [Touch.normalize, Touch.x_multiplier, Touch.x_add,
      Touch.y_multiplier, Touch.y_add]
    norm_num [touchMain, pyInt]
  · norm_num [touchMain]

/-- C6 (amended): for every pair of raw ADC readings `(rx, ry)`,
`Touch.get_touch` returns a coordinate pair exactly when
`x_min ≤ rx ≤ x_max` and `y_min ≤ ry ≤ y_max`, and otherwise returns
nothing; when it returns a pair, each coordinate equals the linear
calibration formula `int(raw * (dim/(max-min)) + (-min * dim/(max-min)))`
and lies within the *closed* box `[0, width] × [0, height]` (the upper
endpoint is reached at `raw = max`). -/
theorem C6_amended_get_touch_calibration (t : TouchCal) (rx ry : ℤ)
    (hx : t.x_min < t.x_max) (hy : t.y_min < t.y_max)
    (hw : 0 ≤ t.width) (hh : 0 ≤ t.height) :
    (Touch.get_touch t rx ry =
      if t.x_min ≤ rx ∧ rx ≤ t.x_max ∧ t.y_min ≤ ry ∧ ry ≤ t.y_max then
        some (pyInt (Touch.x_multiplier t * (rx : ℚ) + Touch.x_add t),
          pyInt (Touch.y_multiplier t * (ry : ℚ) + Touch.y_add t))
      else none) ∧
    (t.x_min ≤ rx → rx ≤ t.x_max →
      0 ≤ (Touch.normalize t rx ry).1 ∧ (Touch.normalize t rx ry).1 ≤ t.width) ∧
    (t.y_min ≤ ry → ry ≤ t.y_max →
      0 ≤ (Touch.normalize t rx ry).2 ∧ (Touch.normalize t rx ry).2 ≤ t.height) := by
  have hDx : (0 : ℚ) < (t.x_max : ℚ) - (t.x_min : ℚ) := by
    rw [sub_pos]
    exact_mod_cast hx
  have hDy : (0 : ℚ) < (t.y_max : ℚ) - (t.y_min : ℚ) := by
    rw [sub_pos]
    exact_mod_cast hy
  have hvalx : Touch.x_multiplier t * (rx : ℚ) + Touch.x_add t =
      (t.width : ℚ) * ((rx : ℚ) - (t.x_min : ℚ)) / ((t.x_max : ℚ) - (t.x_min : ℚ)) := by
    simp only [Touch.x_multiplier, Touch.x_add]
    field_simp
    ring
  have hvaly : Touch.y_multiplier t * (ry : ℚ) + Touch.y_add t =
      (t.height : ℚ) * ((ry : ℚ) - (t.y_min : ℚ)) / ((t.y_max : ℚ) - (t.y_min : ℚ)) := by
    simp only [Touch.y_multiplier, Touch.y_add]
    field_simp
    ring
  refine ⟨?_, ?_, ?_⟩
  · rw [Touch.get_touch, Touch.raw_touch]
    split_ifs <;> rfl
  · intro h1 h2
    have hq0 : (0 : ℚ) ≤ Touch.x_multiplier t * (rx : ℚ) + Touch.x_add t := by
      rw [hvalx]
      apply div_nonneg _ (le_of_lt hDx)
      apply mul_nonneg (by exact_mod_cast hw)
      rw [sub_nonneg]
      exact_mod_cast h1
    have hqw : Touch.x_multiplier t * (rx : ℚ) + Touch.x_add t ≤ (t.width : ℚ) := by
      rw [hvalx, div_le_iff₀ hDx]
      apply mul_le_mul_of_nonneg_left _ (by exact_mod_cast hw)
      rw [sub_le_sub_iff_right]
      exact_mod_cast h2
    exact ⟨pyInt_nonneg hq0, pyInt_le_of_le hq0 hqw⟩
  · intro h1 h2
    have hq0 : (0 : ℚ) ≤ Touch.y_multiplier t * (ry : ℚ) + Touch.y_add t := by
      rw [hvaly]
      apply div_nonneg _ (le_of_lt hDy)
      apply mul_nonneg (by exact_mod_cast hh)
      rw [sub_nonneg]
      exact_mod_cast h1
    have hqh : Touch.y_multiplier t * (ry : ℚ) + Touch.y_add t ≤ (t.height : ℚ) := by
      rw [hvaly, div_le_iff₀ hDy]
      apply mul_le_mul_of_nonneg_left _ (by exact_mod_cast hh)
      rw [sub_le_sub_iff_right]
      exact_mod_cast h2
    exact ⟨pyInt_nonneg hq0, pyInt_le_of_le hq0 hqh⟩

/-- Witness for the amended C6 at the `main.py` calibration and the raw
corner sample `(1962, 1900)`: the sample is accepted and both screen
coordinates land inside the closed box (here exactly on its far corner
`(320, 240)`). -/
theorem C6_amended_get_touch_calibration_witness :
    0 ≤ (Touch.normalize touchMain 1962 1900).1 ∧
      (Touch.normalize touchMain 1962 1900).1 ≤ touchMain.width := by
  exact (C6_amended_get_touch_calibration touchMain 1962 1900
    (by norm_num [touchMain]) (by norm_num [touchMain])
    (by norm_num [touchMain]) (by norm_num [touchMain])).2.1
    (by norm_num [touchMain]) (by norm_num [touchMain])

/-! ### Display command trace and overlay animation (`main.py`) -/

/-- Modelled from the spec: the `color565` packing of the `ili9341`
driver, which is not part of `src/`; the spec only requires "a 16-bit
packed RGB value" (§6), so the standard RGB565 layout is used. -/
def color565 (r g b : ℕ) : ℕ := ((r &&& 248) <<< 8) ||| ((g &&& 252) <<< 3) ||| (b >>> 3)

/-- `BG_COLOR = color565(0, 0, 0)` (`main.py` line 19). -/
def BG_COLOR : ℕ := color565 0 0 0

/-- `ANIM_COLOR = color565(255, 0, 0)` (`main.py` line 23). -/
def ANIM_COLOR : ℕ := color565 255 0 0

/-- `BALL_COLOR = color565(0, 0, 255)` (`main.py` line 18). -/
def BALL_COLOR : ℕ := color565 0 0 255

/-- A display write, recorded instead of performed:
`display.fill_rectangle(x, y, w, h, color)` or
`display.block(x0, y0, x1, y1, buf)` with the byte length of `buf`. -/
inductive DrawCmd where
  | fill_rectangle (x y width height : ℤ) (color : ℕ)
  | block (x0 y0 x1 y1 bufBytes : ℤ)
deriving DecidableEq, Repr

/-- The `current_anim` record of `main.py` (lines 50–59): side, rectangle
and start time of the single active overlay animation. -/
structure AnimRec where
  side : Side
  x : ℤ
  y : ℤ
  width : ℤ
  height : ℤ
  start_time : ℤ
deriving DecidableEq, Repr

/-- MicroPython's tick counter period (`ticks_ms` wraps modulo `2^30`). -/
def TICKS_PERIOD : ℤ := 2 ^ 30

/-- MicroPython's wraparound-safe `ticks_diff(a, b)`: the signed modular
difference in `[-2^29, 2^29)`. -/
def ticks_diff (a b : ℤ) : ℤ := (a - b + 2 ^ 29) % TICKS_PERIOD - 2 ^ 29

/-- `update_animation` (`main.py` lines 61–80) with `ticks_ms()` passed
as `now`: when an animation is active and `SIDE_ANIM_DURATION` has
elapsed, erase its rectangle with the background color and clear
`current_anim`; otherwise do nothing. -/
def update_animation (anim : Option AnimRec) (now : ℤ) :
    Option AnimRec × List DrawCmd :=
  match anim with
  | none => (none, [])
  | some a =>
    if ticks_diff now a.start_time ≥ SIDE_ANIM_DURATION then
      (none, [DrawCmd.fill_rectangle a.x a.y a.width a.height BG_COLOR])
    else
      (some a, [])

/-- The rectangle geometry of `draw_side_animation_nonblocking`
(`main.py` lines 103–123), with `effect_size = 50`: `(x, y, width,
height)` for each side, taking the ball center `(bx, bY)`. -/
def animRect (side : Side) (bx bY : ℤ) : ℤ × ℤ × ℤ × ℤ :=
  match side with
  | Side.left => (0, max 0 (bY - 25), 5, min 50 (HEIGHT - max 0 (bY - 25)))
  | Side.right => (WIDTH - 5, max 0 (bY - 25), 5, min 50 (HEIGHT - max 0 (bY - 25)))
  | Side.top => (max 0 (bx - 25), 0, min 50 (WIDTH - max 0 (bx - 25)), 5)
  | Side.bottom => (max 0 (bx - 25), HEIGHT - 5, min 50 (WIDTH - max 0 (bx - 25)), 5)

/-- `draw_side_animation_nonblocking` (`main.py` lines 82–137): if an
animation is already active, first erase its recorded rectangle with the
background color; then draw the new side rectangle in the animation
color and record it (with `start_time = now`) as the single active
animation. -/
def draw_side_animation_nonblocking (anim : Option AnimRec) (side : Side)
    (bx bY now : ℤ) : Option AnimRec × List DrawCmd :=
  let erase : List DrawCmd :=
    match anim with
    | some a => [DrawCmd.fill_rectangle a.x a.y a.width a.height BG_COLOR]
    | none => []
  let r := animRect side bx bY
  (some ⟨side, r.1, r.2.1, r.2.2.1, r.2.2.2, now⟩,
    erase ++ [DrawCmd.fill_rectangle r.1 r.2.1 r.2.2.1 r.2.2.2 ANIM_COLOR])

/-! ### Claim C7: single overlay, exact erase-before-draw -/

/-- C7: the overlay state is a single `Option AnimRec`, so at most one
overlay effect is active at any time, and triggering a new side
animation always leaves exactly one active record.  Triggering while an
animation `a` is active first fills with the background color exactly
the rectangle recorded for `a` (same `x`, `y`, `width`, `height`),
before drawing the new rectangle and recording its state. -/
theorem C7_single_overlay_exact_erase (a : AnimRec) (side : Side) (bx bY now : ℤ) :
    (draw_side_animation_nonblocking (some a) side bx bY now).2 =
      [DrawCmd.fill_rectangle a.x a.y a.width a.height BG_COLOR,
        DrawCmd.fill_rectangle (animRect side bx bY).1 (animRect side bx bY).2.1
          (animRect side bx bY).2.2.1 (animRect side bx bY).2.2.2 ANIM_COLOR] ∧
    (∀ prev : Option AnimRec,
      (draw_side_animation_nonblocking prev side bx bY now).1 =
        some ⟨side, (animRect side bx bY).1, (animRect side bx bY).2.1,
          (animRect side bx bY).2.2.1, (animRect side bx bY).2.2.2, now⟩) := by
  refine ⟨rfl, ?_⟩
  intro prev
  cases prev <;> rfl

/-! ### Claim C8: overlay erased exactly once, never early -/

/-- C8: `update_animation` has no effect when no animation is active; an
active overlay is left untouched at every tick where the elapsed
monotonic time (`ticks_diff now start_time`) is below
`SIDE_ANIM_DURATION`, and at a tick where it is at least
`SIDE_ANIM_DURATION` the recorded rectangle is erased (filled with the
background color) and the state returns to idle — after which a further
tick does nothing, so the erase happens exactly once. -/
theorem C8_overlay_erased_once_never_early (anim : Option AnimRec) (now now2 : ℤ) :
    (anim = none → update_animation anim now = (none, [])) ∧
    (∀ a, anim = some a →
      (ticks_diff now a.start_time < SIDE_ANIM_DURATION →
        update_animation anim now = (some a, [])) ∧
      (SIDE_ANIM_DURATION ≤ ticks_diff now a.start_time →
        update_animation anim now =
          (none, [DrawCmd.fill_rectangle a.x a.y a.width a.height BG_COLOR]) ∧
        update_animation (update_animation anim now).1 now2 = (none, []))) := by
  refine ⟨?_, ?_⟩
  · intro h
    rw [h]
    rfl
  · intro a ha
    subst ha
    refine ⟨?_, ?_⟩
    · intro hlt
      rw [update_animation, if_neg (not_le.2 hlt)]
    · intro hge
      have he : update_animation (some a) now =
          (none, [DrawCmd.fill_rectangle a.x a.y a.width a.height BG_COLOR]) := by
        rw [update_animation, if_pos hge]
      exact ⟨he, by rw [he]; rfl⟩

/-- Witness for C8: an animation started at tick 0 is still intact at
tick 99, and at tick 100 it is erased; a second call afterwards does
nothing. -/
theorem C8_overlay_erased_once_never_early_witness :
    update_animation (some ⟨Side.top, 95, 0, 50, 5, 0⟩) 99 =
        (some ⟨Side.top, 95, 0, 50, 5, 0⟩, []) ∧
      update_animation (some ⟨Side.top, 95, 0, 50, 5, 0⟩) 100 =
        (none, [DrawCmd.fill_rectangle 95 0 50 5 BG_COLOR]) := by
  have h := C8_overlay_erased_once_never_early
    (some ⟨Side.top, 95, 0, 50, 5, 0⟩) 99 0
  have h2 := C8_overlay_erased_once_never_early
    (some ⟨Side.top, 95, 0, 50, 5, 0⟩) 100 0
  refine ⟨(h.2 _ rfl).1 ?_, ((h2.2 _ rfl).2 ?_).1⟩
  · norm_num [ticks_diff, TICKS_PERIOD, SIDE_ANIM_DURATION]
  · norm_num [ticks_diff, TICKS_PERIOD, SIDE_ANIM_DURATION]

/-! ### Dirty-rectangle redraw (claim C9) -/

/-- The bounding-box computation of the main loop (`main.py` lines
256–267): box around old and new ball centers extended by
`BALL_RADIUS` (+ `padding = 0`), clipped to the screen rectangle
`[0, WIDTH-1] × [0, HEIGHT-1]`.  Returns `(x_min, y_min, x_max, y_max)`. -/
def computeRegion (ball_x ball_y new_x new_y : ℤ) : ℤ × ℤ × ℤ × ℤ :=
  let padding : ℤ := 0
  let x_min := min ball_x new_x - BALL_RADIUS - padding
  let y_min := min ball_y new_y - BALL_RADIUS - padding
  let x_max := max ball_x new_x + BALL_RADIUS + padding
  let y_max := max ball_y new_y + BALL_RADIUS + padding
  (max 0 x_min, max 0 y_min, min (WIDTH - 1) x_max, min (HEIGHT - 1) y_max)

/-- The conditional redraw of the main loop (`main.py` lines 256–282):
when the ball moved, allocate a buffer of `region_width * region_height
* 2` bytes and blit it to the clipped bounding box. -/
def redrawCmds (ball_x ball_y new_x new_y : ℤ) : List DrawCmd :=
  if new_x ≠ ball_x ∨ new_y ≠ ball_y then
    let r := computeRegion ball_x ball_y new_x new_y
    let region_width := r.2.2.1 - r.1 + 1
    let region_height := r.2.2.2 - r.2.1 + 1
    [DrawCmd.block r.1 r.2.1 r.2.2.1 r.2.2.2 (region_width * region_height * 2)]
  else
    []

/-- Stated from the spec's words: the bounding box
`(x_min, y_min, x_max, y_max)` of a ball circle of radius `r` centered at
`(cx, cy)` — the circle extended by the radius on every side. -/
def specCircleBox (cx cy r : ℤ) : ℤ × ℤ × ℤ × ℤ := (cx - r, cy - r, cx + r, cy + r)

/-- Stated from the spec's words: the bounding box of the union of two
boxes. -/
def specBoxUnion (b1 b2 : ℤ × ℤ × ℤ × ℤ) : ℤ × ℤ × ℤ × ℤ :=
  (min b1.1 b2.1, min b1.2.1 b2.2.1, max b1.2.2.1 b2.2.2.1, max b1.2.2.2 b2.2.2.2)

/-- Stated from the spec's words: a box clipped to the screen rectangle
`[0, WIDTH-1] × [0, HEIGHT-1]`. -/
def specClip (b : ℤ × ℤ × ℤ × ℤ) : ℤ × ℤ × ℤ × ℤ :=
  (max 0 b.1, max 0 b.2.1, min (WIDTH - 1) b.2.2.1, min (HEIGHT - 1) b.2.2.2)

/-- Stated from the spec's words: the redraw region is the bounding box
of the union of the old and new ball circles, clipped to the screen. -/
def specRegion (ox oy nx ny : ℤ) : ℤ × ℤ × ℤ × ℤ :=
  specClip (specBoxUnion (specCircleBox ox oy BALL_RADIUS) (specCircleBox nx ny BALL_RADIUS))

theorem int_abs_le_of_sq_le_sq {a r : ℤ} (h : a ^ 2 ≤ r ^ 2) (hr : 0 ≤ r) :
    -r ≤ a ∧ a ≤ r := by
  constructor
  · nlinarith [sq_nonneg (a + r)]
  · nlinarith [sq_nonneg (a - r)]

/-- C9: whenever the ball's position changes in a tick, the redrawn
region is exactly the bounding box of the union of the old and new ball
circles (each extended by `BALL_RADIUS` on every side), clipped to the
screen rectangle `[0, WIDTH-1] × [0, HEIGHT-1]`; the single emitted blit
covers exactly that region with a local buffer of exactly
`region_width * region_height` pixels at 2 bytes each (never the full
screen unless the clipped box covers it), and every on-screen pixel of
either ball circle lies inside the region. -/
theorem C9_dirty_rectangle_exact (ox oy nx ny : ℤ) (hmoved : nx ≠ ox ∨ ny ≠ oy) :
    computeRegion ox oy nx ny = specRegion ox oy nx ny ∧
    redrawCmds ox oy nx ny =
      [DrawCmd.block (specRegion ox oy nx ny).1 (specRegion ox oy nx ny).2.1
        (specRegion ox oy nx ny).2.2.1 (specRegion ox oy nx ny).2.2.2
        (((specRegion ox oy nx ny).2.2.1 - (specRegion ox oy nx ny).1 + 1) *
          ((specRegion ox oy nx ny).2.2.2 - (specRegion ox oy nx ny).2.1 + 1) * 2)] ∧
    (∀ px py : ℤ,
      ((px - ox) ^ 2 + (py - oy) ^ 2 ≤ BALL_RADIUS ^ 2 ∨
        (px - nx) ^ 2 + (py - ny) ^ 2 ≤ BALL_RADIUS ^ 2) →
      0 ≤ px → px ≤ WIDTH - 1 → 0 ≤ py → py ≤ HEIGHT - 1 →
      (specRegion ox oy nx ny).1 ≤ px ∧ px ≤ (specRegion ox oy nx ny).2.2.1 ∧
        (specRegion ox oy nx ny).2.1 ≤ py ∧ py ≤ (specRegion ox oy nx ny).2.2.2) := by
  have heq : computeRegion ox oy nx ny = specRegion ox oy nx ny := by
    simp only [computeRegion, specRegion, specClip, specBoxUnion, specCircleBox,
      Prod.mk.injEq]
    refine ⟨?_, ?_, ?_, ?_⟩ <;> omega
  refine ⟨heq, ?_, ?_⟩
  · rw [redrawCmds, if_pos hmoved, heq]
  · intro px py hcirc hx0 hx1 hy0 hy1
    have hR : (0 : ℤ) ≤ BALL_RADIUS := by norm_num [BALL_RADIUS]
    simp only [specRegion, specClip, specBoxUnion, specCircleBox]
    rcases hcirc with h | h
    · have hpx := int_abs_le_of_sq_le_sq (by nlinarith [sq_nonneg (py - oy)] :
        (px - ox) ^ 2 ≤ BALL_RADIUS ^ 2) hR
      have hpy := int_abs_le_of_sq_le_sq (by nlinarith [sq_nonneg (px - ox)] :
        (py - oy) ^ 2 ≤ BALL_RADIUS ^ 2) hR
      omega
    · have hpx := int_abs_le_of_sq_le_sq (by nlinarith [sq_nonneg (py - ny)] :
        (px - nx) ^ 2 ≤ BALL_RADIUS ^ 2) hR
      have hpy := int_abs_le_of_sq_le_sq (by nlinarith [sq_nonneg (px - nx)] :
        (py - ny) ^ 2 ≤ BALL_RADIUS ^ 2) hR
      omega

/-- Witness for C9 at the spec §8 step `(120,160) → (121,161)`: the
emitted blit covers the clipped union box `[110,131] × [150,171]` with a
`22 * 22 * 2`-byte buffer. -/
theorem C9_dirty_rectangle_exact_witness :
    redrawCmds 120 160 121 161 = [DrawCmd.block 110 150 131 171 (22 * 22 * 2)] := by
  have h := (C9_dirty_rectangle_exact 120 160 121 161 (Or.inl (by norm_num))).2.1
  rw [h]
  norm_num [specRegion, specClip, specBoxUnion, specCircleBox, WIDTH, HEIGHT, BALL_RADIUS]

/-! ### The main loop tick (claim C3) -/

/-- `BUTTON_X = 10` (`main.py` line 203). -/
def BUTTON_X : ℤ := 10

/-- `BUTTON_Y = 10` (`main.py` line 204). -/
def BUTTON_Y : ℤ := 10

/-- `BUTTON_WIDTH = 80` (`main.py` line 205). -/
def BUTTON_WIDTH : ℤ := 80

/-- `BUTTON_HEIGHT = 40` (`main.py` line 206). -/
def BUTTON_HEIGHT : ℤ := 40

/-- `is_button_pressed` (`main.py` lines 208–209). -/
def is_button_pressed (x y : ℤ) : Bool :=
  decide (BUTTON_X ≤ x ∧ x ≤ BUTTON_X + BUTTON_WIDTH ∧
    BUTTON_Y ≤ y ∧ y ≤ BUTTON_Y + BUTTON_HEIGHT)

/-- `touch_handler` (`main.py` lines 213–219): the interrupt handler
registered with the touch driver; it only sets the `button_pressed`
flag when the touch lands in the stub button area. -/
def touch_handler (button_pressed : Bool) (x y : ℤ) : Bool :=
  if is_button_pressed x y then true else button_pressed

/-- The mutable state of the `while True` loop in `main.py` (lines
250–295): ball position `(ball_x, ball_y)`, velocities `(dx, dy)`, the
overlay animation singleton, and the `button_pressed` flag written by
the touch interrupt handler. -/
structure LoopState where
  ball_x : ℤ
  ball_y : ℤ
  dx : ℚ
  dy : ℚ
  anim : Option AnimRec
  button_pressed : Bool
deriving DecidableEq, Repr

/-- One iteration of the `while True` loop of `main.py` (lines 253–289),
with the ambient inputs made explicit: `touch` is an optional touch
sample delivered during the tick (the loop itself never reads touch;
a delivered sample only runs the interrupt handler `touch_handler`,
which is the entire touch plumbing in `main.py`), `d` the random
deflection, `now` the tick timestamp.  The body runs, in order: the
physics step `update_ball_position` (which itself triggers the side
animation on a bounce, `ANIMS` being `True`), then the conditional
dirty-rectangle redraw when the position changed, then
`update_animation`. -/
def mainTick (s : LoopState) (touch : Option (ℤ × ℤ)) (d now : ℤ) :
    LoopState × List DrawCmd :=
  let pressed : Bool :=
    match touch with
    | some p => touch_handler s.button_pressed p.1 p.2
    | none => s.button_pressed
  let u := update_ball_position (s.ball_x : ℚ) (s.ball_y : ℚ) s.dx s.dy d
  let animTrig : Option AnimRec × List DrawCmd :=
    match (collisionStep (s.ball_x : ℚ) (s.ball_y : ℚ) s.dx s.dy).bounce with
    | some side => draw_side_animation_nonblocking s.anim side u.1 u.2.1 now
    | none => (s.anim, [])
  let redraw := redrawCmds s.ball_x s.ball_y u.1 u.2.1
  let upd := update_animation animTrig.1 now
  (⟨u.1, u.2.1, u.2.2.1, u.2.2.2, upd.1, pressed⟩, animTrig.2 ++ redraw ++ upd.2)

/-- C3 counterexample: from the startup state (ball at `(120, 160)`,
velocity `(1, 1)`, no overlay, flag clear), a tick during which a touch
down-edge lands exactly on the ball's center `(120, 160)` — within any
capture radius — produces *exactly* the same state and draw commands as
a tick with no touch at all: no velocity nudge of any magnitude is
applied toward any wall. -/
theorem C3_counterexample :
    mainTick ⟨120, 160, 1, 1, none, false⟩ (some (120, 160)) 0 0 =
      mainTick ⟨120, 160, 1, 1, none, false⟩ none 0 0 := by
  have h : touch_handler false 120 160 = false := by decide
  simp only [mainTick]
  rw [h]

/-- C3 (amended): the main loop does not poll touch and applies no
nudge.  Every component of the tick result other than the
`button_pressed` flag — ball position, both velocities, overlay state,
and the emitted draw commands — is independent of any touch sample, the
returned velocities are exactly those of the physics step
`update_ball_position`, and a touch sample only feeds the interrupt
handler `touch_handler`, whose `button_pressed` flag the loop never
reads. -/
theorem C3_amended_loop_ignores_touch (s : LoopState) (t1 t2 : Option (ℤ × ℤ))
    (d now : ℤ) :
    (mainTick s t1 d now).1.ball_x = (mainTick s t2 d now).1.ball_x ∧
    (mainTick s t1 d now).1.ball_y = (mainTick s t2 d now).1.ball_y ∧
    (mainTick s t1 d now).1.dx = (mainTick s t2 d now).1.dx ∧
    (mainTick s t1 d now).1.dy = (mainTick s t2 d now).1.dy ∧
    (mainTick s t1 d now).1.anim = (mainTick s t2 d now).1.anim ∧
    (mainTick s t1 d now).2 = (mainTick s t2 d now).2 ∧
    (mainTick s t1 d now).1.dx =
      (update_ball_position (s.ball_x : ℚ) (s.ball_y : ℚ) s.dx s.dy d).2.2.1 ∧
    (mainTick s t1 d now).1.dy =
      (update_ball_position (s.ball_x : ℚ) (s.ball_y : ℚ) s.dx s.dy d).2.2.2 ∧
    (∀ p : ℤ × ℤ, (mainTick s (some p) d now).1.button_pressed =
      touch_handler s.button_pressed p.1 p.2) :=
  ⟨rfl, rfl, rfl, rfl, rfl, rfl, rfl, rfl, fun _ => rfl⟩

end AutoPong
